import Mathlib

/-!
Verification development for the Klipper firmware-image analysis engine
(`klipper_analyzer.py`).  The engine's pure functions are shallowly embedded:
a firmware buffer is a `List Nat` of byte values (each `< 256`; reads apply
`% 256` so that the embedded reader agrees with Python's `bytes` type),
32-bit machine arithmetic is `Nat` with the masks written out explicitly,
and Python exceptions are modelled as `Option`/`none` results.
The external zlib / UTF-8 / JSON library calls made by the dictionary
locator are not part of the analyzed source; they are modelled as oracle
parameters (`decomp`, `parse`) whose behaviour is constrained by hypotheses
in the theorems that need them.
-/

set_option maxRecDepth 100000

/-- Constant `FLASH_BASE = 0x08000000`, the fixed flash base constant of the source. -/
def FLASH_BASE : Nat := 0x08000000

/-- Table `KNOWN_OFFSETS`: the enumerated bootloader-offset table
`(file offset, size in KiB, label)` from the source. -/
def KNOWN_OFFSETS : List (Nat × Nat × String) :=
  [ (0x0000,  0, "No bootloader (direct flash)"),
    (0x1000,  4, "Minimal / custom 4 KiB bootloader"),
    (0x2000,  8, "HID / stm32duino bootloader"),
    (0x3000, 12, "Creality K1 / K1 SE / K1 Max (GD32F303)"),
    (0x5000, 20, "DFU 20 KiB (uncommon)"),
    (0x7000, 28, "Creality/Klipper custom 28 KiB bootloader"),
    (0x8000, 32, "DFU 32 KiB standard") ]

/-- List `KNOWN_BL_OFFSETS`: the plain list of enumerated bootloader file offsets. -/
def KNOWN_BL_OFFSETS : List Nat := [0x0000, 0x1000, 0x2000, 0x3000, 0x5000, 0x7000, 0x8000]

/-- One byte of the buffer.  Python `bytes` elements are always in `[0, 256)`;
the `% 256` realizes that typing constraint in the embedding.  Out-of-range
reads default to `0`; every call site below is guarded by the same length
check the source performs before indexing. -/
def byteAt (data : List Nat) (i : Nat) : Nat := data.getD i 0 % 256

/-- Function `u32le(data, offset)`: `struct.unpack_from('<I', data, offset)[0]`, the
little-endian 32-bit word at `offset`.  `struct` raises when
`offset + 4 > len(data)`; all callers in the source guard the length first,
and those guards are reproduced at the call sites below. -/
def u32le (data : List Nat) (offset : Nat) : Nat :=
  byteAt data offset + byteAt data (offset + 1) * 0x100 +
    byteAt data (offset + 2) * 0x10000 + byteAt data (offset + 3) * 0x1000000

/-- Mask `x & 0xFFFFFFFE` for a 32-bit value `x`: clear the thumb bit (bit 0). -/
def mask_thumb (x : Nat) : Nat := x - x % 2

/-- Mask `x & 0xFFFFF000` for a 32-bit value `x`: round down to a 4 KiB page. -/
def mask_page (x : Nat) : Nat := x - x % 0x1000

/-- The record produced by `analyze_vector_table` in the source. -/
structure VTInfo where
  msp : Nat
  reset : Nat
  thumb : Nat
  reset_addr : Nat
  msp_ok : Bool
  flash_ok : Bool
deriving Repr, DecidableEq

/-- Function `analyze_vector_table(data)`: reads the two little-endian words at file
offsets 0 and 4 and computes the validity flags.  The source performs no
length check, so `struct.unpack_from` raises `struct.error` on a buffer
shorter than 8 bytes; that exception is modelled as `none`. -/
def analyze_vector_table (data : List Nat) : Option VTInfo :=
  if 8 ≤ data.length then
    let msp := u32le data 0
    let reset := u32le data 4
    some { msp := msp, reset := reset, thumb := reset % 2,
           reset_addr := mask_thumb reset,
           msp_ok := decide (0x20000000 ≤ msp ∧ msp ≤ 0x20020000),
           flash_ok := decide (FLASH_BASE ≤ mask_thumb reset ∧
                               mask_thumb reset < FLASH_BASE + 0x80000) }
  else none

/-- Function `is_valid_vt(data, offset)`: plausibility of a Cortex-M vector table at a
file offset.  Returns `False` when `offset + 8 > len(data)` (explicit guard
in the source), else checks the stack-pointer range, the masked reset-address
range, and the thumb bit. -/
def is_valid_vt (data : List Nat) (offset : Nat) : Bool :=
  if offset + 8 > data.length then false
  else
    let msp := u32le data offset
    let reset := u32le data (offset + 4)
    decide (0x20000000 ≤ msp ∧ msp ≤ 0x20020000) &&
    decide (FLASH_BASE ≤ mask_thumb reset ∧ mask_thumb reset < FLASH_BASE + 0x80000) &&
    (reset % 2 == 1)

/-- Step 1 of `find_link_base`: the vector-table file offset.  `0` when the
table is plausible at offset 0 (the alternates are then never probed), else
the first plausible non-zero enumerated offset, else `0`. -/
def findVtOff (data : List Nat) : Nat :=
  if is_valid_vt data 0 then 0
  else ((KNOWN_BL_OFFSETS.drop 1).find? (fun off => is_valid_vt data off)).getD 0

/-- Does `pat` match the first `pat.length` bytes of `l`? -/
def leadMatch : List Nat → List Nat → Bool
  | [], _ => true
  | _ :: _, [] => false
  | a :: as, b :: bs => a == b && leadMatch as bs

/-- Test `hay.count(pat) > 0` for a nonempty byte pattern `pat`: does `pat` occur
contiguously anywhere in `hay`? -/
def occurs (pat : List Nat) : List Nat → Bool
  | [] => leadMatch pat []
  | b :: rest => leadMatch pat (b :: rest) || occurs pat rest

/-- Function `struct.pack('<I', v)`: the 4 little-endian bytes of `v`.  `struct`
raises for `v ≥ 2^32`; the caller below guards that case explicitly. -/
def pack32le (v : Nat) : List Nat :=
  [v % 256, v / 0x100 % 256, v / 0x10000 % 256, v / 0x1000000 % 256]

/-- Step 2 of `find_link_base`: the dictionary pointer cross-reference loop
over the candidate bootloader offsets, in list order.  The outer `none`
models the `struct.error` that `struct.pack('<I', ...)` would raise on a
hypothetical flash address `≥ 2^32`; `some none` means the loop finished
with no match; `some (some lb)` means candidate `lb` was accepted. -/
def primaryScan (data : List Nat) (dictOff vtOff : Nat) : List Nat → Option (Option Nat)
  | [] => some none
  | b :: rest =>
    let link_base := FLASH_BASE + b
    let addr := link_base + dictOff - vtOff
    if addr < 2 ^ 32 then
      if occurs (pack32le addr) data then some (some link_base)
      else primaryScan data dictOff vtOff rest
    else none

/-- Steps 3 and 4 of `find_link_base`: vector-table-position fallback, then
the reset vector masked to a 4 KiB page.  The final `u32le(data, 4)` read
raises on a buffer shorter than 8 bytes (modelled as `none`). -/
def fallbackResolve (data : List Nat) (vtOff : Nat) : Option Nat :=
  if 0 < vtOff then some (FLASH_BASE + vtOff)
  else if 8 ≤ data.length then some (mask_page (mask_thumb (u32le data 4)))
  else none

/-- Function `find_link_base(data, dict_file_offset)`: the Link Base Resolver.
`none` models an escaping exception (see `primaryScan` / `fallbackResolve`). -/
def find_link_base (data : List Nat) (dictOff : Option Nat) : Option Nat :=
  match dictOff with
  | some d =>
    match primaryScan data d (findVtOff data) KNOWN_BL_OFFSETS with
    | none => none
    | some (some lb) => some lb
    | some none => fallbackResolve data (findVtOff data)
  | none => fallbackResolve data (findVtOff data)

/-- Derivation `bl_offset = (link_base - FLASH_BASE) if link_base else None` from the
source's main pipeline: the derived bootloader offset, absent when
`find_link_base` produced the falsy value `0` (or raised). -/
def resolve_bl_offset (data : List Nat) (dictOff : Option Nat) : Option Int :=
  match find_link_base data dictOff with
  | some lb => if lb = 0 then none else some ((lb : Int) - (FLASH_BASE : Int))
  | none => none

/-- The constant label the Offset Classifier uses for unrecognized offsets. -/
def nonStandardLabel : String := "Non-standard offset"

/-- The lookup loop of `offset_label`. -/
def offsetLabelAux : List (Nat × Nat × String) → Int → Int × String
  | [], bl => (Int.fdiv bl 1024, nonStandardLabel)
  | (off, kib, label) :: rest, bl =>
    if (off : Int) = bl then ((kib : Int), label) else offsetLabelAux rest bl

/-- Function `offset_label(bl_offset)`: enumerated `(kib, label)` when the offset is in
`KNOWN_OFFSETS`, else `(bl_offset // 1024, "Non-standard offset")`.  The
offset is an `Int` because the source's fallback link base can make
`link_base - FLASH_BASE` negative; Python `//` is floor division
(`Int.fdiv`). -/
def offset_label (bl : Int) : Int × String := offsetLabelAux KNOWN_OFFSETS bl

/-- The enumerated bootloader offsets of `KNOWN_OFFSETS`, as integers. -/
def enumOffsets : List Int := KNOWN_OFFSETS.map (fun t => (t.1 : Int))

/-- The 4-byte little-endian needle `find_link_base` searches for when it
tests candidate bootloader offset `b` against dictionary file offset `D`. -/
def dict_needle (data : List Nat) (D b : Nat) : List Nat :=
  pack32le (FLASH_BASE + b + D - findVtOff data)

/-- The structured values `json.loads` can produce.  `jobj` models a Python
dict (keys unique, as `json.loads` returns). -/
inductive JVal where
  | jnull : JVal
  | jbool : Bool → JVal
  | jnum : Int → JVal
  | jstr : String → JVal
  | jarr : List JVal → JVal
  | jobj : List (String × JVal) → JVal

/-- Python `dict.get(k, default)` over the association list of a `jobj`
(without the default: `none` when the key is absent). -/
def jlookup (k : String) : List (String × JVal) → Option JVal
  | [] => none
  | (k1, v) :: rest => if k1 = k then some v else jlookup k rest

/-- The key of the config sub-mapping. -/
def keyConfig : String := "config"

/-- Marker key: MCU identity. -/
def keyMCU : String := "MCU"

/-- Marker key: clock frequency. -/
def keyClockFreq : String := "CLOCK_FREQ"

/-- Marker key: serial baud rate. -/
def keySerialBaud : String := "SERIAL_BAUD"

/-- Lookup `cfg = obj.get('config', obj)`: the `config` sub-mapping, or the object
itself when that key is absent.  When the parsed value is not a dict,
`.get` raises `AttributeError` (caught by the locator's `except`):
modelled as `none`. -/
def cfgOf : JVal → Option JVal
  | JVal.jobj kvs => some ((jlookup keyConfig kvs).getD (JVal.jobj kvs))
  | _ => none

/-- Does `pat` match the first `pat.length` characters of `l`? -/
def leadMatchC : List Char → List Char → Bool
  | [], _ => true
  | _ :: _, [] => false
  | a :: as, b :: bs => a == b && leadMatchC as bs

/-- Substring occurrence on character lists (Python `needle in str`). -/
def occursC (pat : List Char) : List Char → Bool
  | [] => leadMatchC pat []
  | b :: rest => leadMatchC pat (b :: rest) || occursC pat rest

/-- Python `k in cfg` for a parsed JSON value `cfg`: key membership for a
dict, element equality for a list, substring for a string; for any other
type Python raises `TypeError` (caught by the locator): modelled as `none`. -/
def inTest (k : String) : JVal → Option Bool
  | JVal.jobj kvs => some (kvs.any (fun p => p.1 == k))
  | JVal.jarr xs => some (xs.any (fun v => match v with
      | JVal.jstr s => s == k
      | _ => false))
  | JVal.jstr s => some (occursC k.toList s.toList)
  | _ => none

/-- Check `any(k in cfg for k in ('MCU', 'CLOCK_FREQ', 'SERIAL_BAUD'))`.  Whether
`k in cfg` raises depends only on the shape of `cfg`, never on `k`, so the
non-short-circuit combination below agrees with Python's `any`. -/
def markerCheck (cfg : JVal) : Option Bool :=
  match inTest keyMCU cfg, inTest keyClockFreq cfg, inTest keySerialBaud cfg with
  | some a, some b, some c => some (a || b || c)
  | _, _, _ => none

/-- The two-byte zlib signature test at position `i`:
`data[i] == 0x78 and data[i+1] in (0x01, 0x5E, 0x9C, 0xDA)`. -/
def sigAt (data : List Nat) (i : Nat) : Bool :=
  byteAt data i == 0x78 &&
    (byteAt data (i + 1) == 0x01 || byteAt data (i + 1) == 0x5E ||
     byteAt data (i + 1) == 0x9C || byteAt data (i + 1) == 0xDA)

/-- The `try` body of `extract_dictionary` at candidate position `i`:
signature test, then decompress + UTF-8 decode (`decomp`, an oracle for the
external zlib/UTF-8 calls; `none` = exception), then `json.loads` of the
stripped text (`parse`, an oracle; `none` = exception), then the marker-key
guard.  Every `none` is an exception or failed guard the source catches or
skips, after which scanning continues. -/
def acceptedAt (decomp : List Nat → Option String) (parse : String → Option JVal)
    (data : List Nat) (i : Nat) : Option JVal :=
  if sigAt data i then
    match decomp (data.drop i) with
    | none => none
    | some text =>
      match parse text with
      | none => none
      | some obj =>
        match cfgOf obj with
        | none => none
        | some cfg =>
          match markerCheck cfg with
          | none => none
          | some b => if b then some obj else none
  else none

/-- The scan loop of `extract_dictionary`: first accepted candidate wins. -/
def firstAccept (decomp : List Nat → Option String) (parse : String → Option JVal)
    (data : List Nat) : List Nat → Option (JVal × Nat)
  | [] => none
  | i :: rest =>
    match acceptedAt decomp parse data i with
    | some obj => some (obj, i)
    | none => firstAccept decomp parse data rest

/-- The candidate positions of the scan: `range(4, len(data) - 10)`. -/
def scanIdxs (data : List Nat) : List Nat := List.range' 4 (data.length - 10 - 4)

/-- Function `extract_dictionary(data)`: scan `range(4, len(data) - 10)` for the zlib
signature and return the first accepted `(object, file offset)` pair, or
`None, None` (modelled as `none`) when no candidate is accepted. -/
def extract_dictionary (decomp : List Nat → Option String) (parse : String → Option JVal)
    (data : List Nat) : Option (JVal × Nat) :=
  firstAccept decomp parse data (scanIdxs data)

/-! ### Shared lemmas -/

theorem range'_mem_iff (n : Nat) : ∀ s m : Nat, m ∈ List.range' s n ↔ s ≤ m ∧ m < s + n := by
  induction n with
  | zero => intro s m; simp
  | succ n ih =>
    intro s m
    rw [List.range'_succ]
    simp only [List.mem_cons, ih]
    omega

theorem range'_sorted (n : Nat) : ∀ s : Nat, (List.range' s n).Sorted (· < ·) := by
  induction n with
  | zero => intro s; simp [List.Sorted]
  | succ n ih =>
    intro s
    rw [List.range'_succ]
    refine List.sorted_cons.mpr ⟨?_, ih (s + 1)⟩
    intro b hb
    have := ((range'_mem_iff n (s + 1) b).mp hb).1
    omega

theorem mask_page_mod (x : Nat) : mask_page x % 0x1000 = 0 := by
  unfold mask_page; omega

theorem primaryScan_mem (data : List Nat) (dOff vtOff lb : Nat) :
    ∀ l : List Nat, primaryScan data dOff vtOff l = some (some lb) →
      ∃ b ∈ l, lb = FLASH_BASE + b := by
  intro l
  induction l with
  | nil => intro h; simp [primaryScan] at h
  | cons a rest ih =>
    intro h
    simp only [primaryScan] at h
    split at h
    · split at h
      · refine ⟨a, List.mem_cons_self a rest, ?_⟩
        simpa using h.symm
      · obtain ⟨c, hc, hlb⟩ := ih h
        exact ⟨c, List.mem_cons_of_mem a hc, hlb⟩
    · simp at h

theorem primaryScan_first (data : List Nat) (dOff vtOff B : Nat)
    (hocc : occurs (pack32le (FLASH_BASE + B + dOff - vtOff)) data = true) :
    ∀ l : List Nat, l.Sorted (· < ·) → B ∈ l →
    (∀ b ∈ l, FLASH_BASE + b + dOff - vtOff < 2 ^ 32) →
    (∀ b ∈ l, b < B → occurs (pack32le (FLASH_BASE + b + dOff - vtOff)) data = false) →
    primaryScan data dOff vtOff l = some (some (FLASH_BASE + B)) := by
  intro l
  induction l with
  | nil => intro _ hB _ _; simp at hB
  | cons a rest ih =>
    intro hs hB hov hfirst
    by_cases hab : a = B
    · subst hab
      simp only [primaryScan]
      rw [if_pos (hov a (List.mem_cons_self a rest)), if_pos hocc]
    · have hBr : B ∈ rest := by
        rcases List.mem_cons.mp hB with h | h
        · exact absurd h.symm hab
        · exact h
      have haB : a < B := (List.sorted_cons.mp hs).1 B hBr
      simp only [primaryScan]
      rw [if_pos (hov a (List.mem_cons_self a rest))]
      rw [hfirst a (List.mem_cons_self a rest) haB]
      simp only [Bool.false_eq_true, if_false]
      exact ih (List.sorted_cons.mp hs).2 hBr
        (fun b hb => hov b (List.mem_cons_of_mem a hb))
        (fun b hb => hfirst b (List.mem_cons_of_mem a hb))

theorem find?_first_sorted (p : Nat → Bool) (off : Nat) (hp : p off = true) :
    ∀ l : List Nat, l.Sorted (· < ·) → off ∈ l →
    (∀ o ∈ l, o < off → p o = false) →
    l.find? p = some off := by
  intro l
  induction l with
  | nil => intro _ h _; simp at h
  | cons a rest ih =>
    intro hs hmem hfirst
    by_cases hao : a = off
    · subst hao
      exact List.find?_cons_of_pos rest hp
    · have hor : off ∈ rest := by
        rcases List.mem_cons.mp hmem with h | h
        · exact absurd h.symm hao
        · exact h
      have halt : a < off := (List.sorted_cons.mp hs).1 off hor
      rw [List.find?_cons_of_neg rest (by simp [hfirst a (List.mem_cons_self a rest) halt])]
      exact ih (List.sorted_cons.mp hs).2 hor
        (fun o ho => hfirst o (List.mem_cons_of_mem a ho))

theorem firstAccept_none_iff (dc : List Nat → Option String) (pr : String → Option JVal)
    (data : List Nat) :
    ∀ l : List Nat, firstAccept dc pr data l = none ↔
      ∀ i ∈ l, acceptedAt dc pr data i = none := by
  intro l
  induction l with
  | nil => simp [firstAccept]
  | cons a rest ih =>
    simp only [firstAccept]
    cases h : acceptedAt dc pr data a with
    | some obj =>
      constructor
      · intro hc; cases hc
      · intro hall
        have := hall a (List.mem_cons_self a rest)
        rw [h] at this; cases this
    | none => simp [h, ih, List.forall_mem_cons]

theorem firstAccept_some (dc : List Nat → Option String) (pr : String → Option JVal)
    (data : List Nat) (obj : JVal) (i : Nat) :
    ∀ l : List Nat, l.Sorted (· < ·) → firstAccept dc pr data l = some (obj, i) →
      i ∈ l ∧ acceptedAt dc pr data i = some obj ∧
        ∀ j ∈ l, j < i → acceptedAt dc pr data j = none := by
  intro l
  induction l with
  | nil => intro _ h; simp [firstAccept] at h
  | cons a rest ih =>
    intro hs h
    simp only [firstAccept] at h
    cases ha : acceptedAt dc pr data a with
    | some o =>
      rw [ha] at h
      have hoa : o = obj ∧ a = i := by
        have := h
        simp only [Option.some.injEq, Prod.mk.injEq] at this
        exact this
      obtain ⟨rfl, rfl⟩ := hoa
      refine ⟨List.mem_cons_self a rest, ha, ?_⟩
      intro j hj hji
      rcases List.mem_cons.mp hj with rfl | hjr
      · exact absurd hji (lt_irrefl _)
      · exact absurd hji (not_lt.mpr (le_of_lt ((List.sorted_cons.mp hs).1 j hjr)))
    | none =>
      rw [ha] at h
      obtain ⟨hmem, hacc, hall⟩ := ih (List.sorted_cons.mp hs).2 h
      refine ⟨List.mem_cons_of_mem a hmem, hacc, ?_⟩
      intro j hj hji
      rcases List.mem_cons.mp hj with rfl | hjr
      · exact ha
      · exact hall j hjr hji

theorem firstAccept_of_first (dc : List Nat → Option String) (pr : String → Option JVal)
    (data : List Nat) (obj : JVal) (i : Nat) :
    ∀ l : List Nat, l.Sorted (· < ·) → i ∈ l → acceptedAt dc pr data i = some obj →
    (∀ j ∈ l, j < i → acceptedAt dc pr data j = none) →
    firstAccept dc pr data l = some (obj, i) := by
  intro l
  induction l with
  | nil => intro _ h _ _; simp at h
  | cons a rest ih =>
    intro hs hmem hacc hfirst
    by_cases hai : a = i
    · subst hai
      simp [firstAccept, hacc]
    · have hir : i ∈ rest := by
        rcases List.mem_cons.mp hmem with h | h
        · exact absurd h.symm hai
        · exact h
      have halt : a < i := (List.sorted_cons.mp hs).1 i hir
      have hnone := hfirst a (List.mem_cons_self a rest) halt
      simp only [firstAccept, hnone]
      exact ih (List.sorted_cons.mp hs).2 hir hacc
        (fun j hj => hfirst j (List.mem_cons_of_mem a hj))

theorem fallbackResolve_shape (data : List Nat) (vt lb : Nat) :
    fallbackResolve data vt = some lb →
      (0 < vt ∧ lb = FLASH_BASE + vt) ∨ lb % 0x1000 = 0 := by
  unfold fallbackResolve
  split_ifs with h1 h2
  · intro h
    exact Or.inl ⟨h1, (Option.some.injEq _ _ ▸ h).symm⟩
  · intro h
    have hlb : lb = mask_page (mask_thumb (u32le data 4)) := by
      simpa using h.symm
    exact Or.inr (hlb ▸ mask_page_mod _)
  · intro h; cases h

theorem findVtOff_mem (data : List Nat) : findVtOff data ∈ KNOWN_BL_OFFSETS := by
  unfold findVtOff
  split_ifs with h
  · decide
  · cases hf : (KNOWN_BL_OFFSETS.drop 1).find? (fun off => is_valid_vt data off) with
    | none => simp [hf]; decide
    | some off =>
      simp only [hf, Option.getD_some]
      have := List.mem_of_find?_eq_some hf
      exact List.mem_cons_of_mem 0 this

/-! ### Claim theorems -/

/-- C4: at any in-bounds file offset, `is_valid_vt` holds iff the stack
pointer lies in the closed range `[0x20000000, 0x20020000]`, the reset word
with bit 0 cleared lies in the half-open range `[0x08000000, 0x08080000)`,
and the thumb bit is set; and the same three-way conjunction over
`analyze_vector_table`'s fields (the top-level validation at offset 0)
coincides with `is_valid_vt` at offset 0. -/
theorem c4_vt_plausibility (data : List Nat) (off : Nat) (h : off + 8 ≤ data.length) :
    (is_valid_vt data off = true ↔
      ((0x20000000 ≤ u32le data off ∧ u32le data off ≤ 0x20020000) ∧
       (0x08000000 ≤ mask_thumb (u32le data (off + 4)) ∧
        mask_thumb (u32le data (off + 4)) < 0x08080000) ∧
       u32le data (off + 4) % 2 = 1)) ∧
    (∀ vt : VTInfo, analyze_vector_table data = some vt →
      (vt.msp_ok && vt.flash_ok && (vt.thumb == 1)) = is_valid_vt data 0) := by
  constructor
  · unfold is_valid_vt
    rw [if_neg (by omega)]
    simp only [Bool.and_eq_true, decide_eq_true_eq, beq_iff_eq]
    unfold FLASH_BASE
    omega
  · intro vt hvt
    unfold analyze_vector_table at hvt
    rw [if_pos (by omega)] at hvt
    injection hvt with hvt
    subst hvt
    unfold is_valid_vt
    rw [if_neg (by omega)]

/-- C4 witness: a concrete 8-byte buffer with stack pointer `0x20001000` and
reset vector `0x08000001` validates at offset 0. -/
theorem c4_witness :
    is_valid_vt [0x00, 0x10, 0x00, 0x20, 0x01, 0x00, 0x00, 0x08] 0 = true := by
  exact ((c4_vt_plausibility [0x00, 0x10, 0x00, 0x20, 0x01, 0x00, 0x00, 0x08] 0
    (by decide)).1).mpr (by decide)

/-- C7 counterexample: on a 7-byte buffer, the top-level validation at
offset 0 (`analyze_vector_table`) does not return an invalid indication: the
unguarded `struct.unpack_from` raises `struct.error` (modelled as `none`),
contradicting the claim that the validator never errors there. -/
theorem c7_counterexample : analyze_vector_table (List.replicate 7 0) = none := by rfl

/-- C7 amended: whenever `offset + 8` exceeds the buffer length, the
Resolver's probe `is_valid_vt` returns `False` without raising; the
top-level `analyze_vector_table`, however, raises (modelled as `none`) on
buffers shorter than 8 bytes instead of returning an invalid indication. -/
theorem c7_guard_amended (data : List Nat) (off : Nat) (h : data.length < off + 8) :
    is_valid_vt data off = false ∧ (data.length < 8 → analyze_vector_table data = none) := by
  constructor
  · unfold is_valid_vt
    rw [if_pos (by omega)]
  · intro h8
    unfold analyze_vector_table
    rw [if_neg (by omega)]

/-- C7 witness: the amended guard behaviour at a concrete 3-byte buffer. -/
theorem c7_witness : is_valid_vt [1, 2, 3] 0 = false ∧ analyze_vector_table [1, 2, 3] = none := by
  have h := c7_guard_amended [1, 2, 3] 0 (by decide)
  exact ⟨h.1, h.2 (by decide)⟩

/-- C1: with a dictionary at file offset `D`, the primary cross-reference
accepts the first candidate bootloader offset (in the ascending enumerated
order) whose 4-byte little-endian needle
`0x08000000 + b + D - vt_file_offset` occurs in the buffer; in particular if
`B`'s needle occurs and no smaller candidate's needle does, `resolve`
returns exactly `link_base = 0x08000000 + B` (so it does when `B` is the
unique matching candidate). -/
theorem c1_primary_cross_reference (data : List Nat) (D B : Nat)
    (h8 : 8 ≤ data.length) (hB : B ∈ KNOWN_BL_OFFSETS)
    (hov : ∀ b ∈ KNOWN_BL_OFFSETS, FLASH_BASE + b + D - findVtOff data < 2 ^ 32)
    (hocc : occurs (dict_needle data D B) data = true)
    (hfirst : ∀ b ∈ KNOWN_BL_OFFSETS, b < B → occurs (dict_needle data D b) data = false) :
    find_link_base data (some D) = some (FLASH_BASE + B) := by
  simp only [dict_needle] at hocc hfirst
  have hscan := primaryScan_first data D (findVtOff data) B hocc KNOWN_BL_OFFSETS
    (by decide) hB hov hfirst
  have hred : find_link_base data (some D) =
      (match primaryScan data D (findVtOff data) KNOWN_BL_OFFSETS with
        | none => none
        | some (some lb) => some lb
        | some none => fallbackResolve data (findVtOff data)) := rfl
  rw [hred, hscan]

/-- C1 witness: an 8-byte buffer containing only candidate `0x1000`'s needle
(dictionary offset `D = 0`); `resolve` returns `0x08000000 + 0x1000`. -/
theorem c1_witness :
    occurs (dict_needle [0x00, 0x10, 0x00, 0x08, 0x00, 0x00, 0x00, 0x00] 0 0x1000)
        [0x00, 0x10, 0x00, 0x08, 0x00, 0x00, 0x00, 0x00] = true ∧
    find_link_base [0x00, 0x10, 0x00, 0x08, 0x00, 0x00, 0x00, 0x00] (some 0) =
      some (FLASH_BASE + 0x1000) := by
  exact ⟨by decide,
    c1_primary_cross_reference [0x00, 0x10, 0x00, 0x08, 0x00, 0x00, 0x00, 0x00] 0 0x1000
      (by decide) (by decide) (by decide) (by decide) (by decide)⟩

/-- C2: whenever no dictionary was located (`dictOff = none`) or the primary
cross-reference loop finished without a match, the Resolver returns
`0x08000000 + vt_file_offset` when that offset is nonzero, and otherwise the
reset vector with the thumb bit cleared rounded down to a 4 KiB page; in
particular it returns a value (`some`) and never fails outright. -/
theorem c2_fallback_chain (data : List Nat) (dictOff : Option Nat)
    (h8 : 8 ≤ data.length)
    (hnm : dictOff = none ∨ ∃ D, dictOff = some D ∧
      primaryScan data D (findVtOff data) KNOWN_BL_OFFSETS = some none) :
    find_link_base data dictOff =
      some (if 0 < findVtOff data then FLASH_BASE + findVtOff data
            else mask_page (mask_thumb (u32le data 4))) := by
  have hfb : fallbackResolve data (findVtOff data) =
      some (if 0 < findVtOff data then FLASH_BASE + findVtOff data
            else mask_page (mask_thumb (u32le data 4))) := by
    by_cases h1 : 0 < findVtOff data <;> simp [fallbackResolve, h1, h8]
  rcases hnm with rfl | ⟨D, rfl, hps⟩
  · unfold find_link_base
    exact hfb
  · have hred : find_link_base data (some D) =
        (match primaryScan data D (findVtOff data) KNOWN_BL_OFFSETS with
          | none => none
          | some (some lb) => some lb
          | some none => fallbackResolve data (findVtOff data)) := rfl
    rw [hred, hps]
    exact hfb

/-- C2 witness: the all-zero 8-byte buffer with no dictionary resolves via
the last-resort fallback to `some 0`. -/
theorem c2_witness :
    8 ≤ (List.replicate 8 0 : List Nat).length ∧
    find_link_base (List.replicate 8 0) none = some 0 := by
  have h := c2_fallback_chain (List.replicate 8 0) none (by decide) (Or.inl rfl)
  refine ⟨by decide, ?_⟩
  rw [h]
  decide

/-! ### Index-shift lemmas (to reason about reads deep inside large buffers
without unfolding kilobyte-long literal lists) -/

theorem byteAt_append_right (l1 l2 : List Nat) (m k : Nat) (hm : m = l1.length + k) :
    byteAt (l1 ++ l2) m = byteAt l2 k := by
  unfold byteAt
  rw [List.getD_append_right l1 l2 0 m (by omega)]
  have : m - l1.length = k := by omega
  rw [this]

theorem byteAt_append_left (l1 l2 : List Nat) (k : Nat) (hk : k < l1.length) :
    byteAt (l1 ++ l2) k = byteAt l1 k := by
  unfold byteAt
  rw [List.getD_append l1 l2 0 k hk]

theorem u32le_append_right (l1 l2 : List Nat) (m k : Nat) (hm : m = l1.length + k) :
    u32le (l1 ++ l2) m = u32le l2 k := by
  unfold u32le
  rw [byteAt_append_right l1 l2 m k hm,
      byteAt_append_right l1 l2 (m + 1) (k + 1) (by omega),
      byteAt_append_right l1 l2 (m + 2) (k + 2) (by omega),
      byteAt_append_right l1 l2 (m + 3) (k + 3) (by omega)]

theorem u32le_append_left (l1 l2 : List Nat) (k : Nat) (hk : k + 4 ≤ l1.length) :
    u32le (l1 ++ l2) k = u32le l1 k := by
  unfold u32le
  rw [byteAt_append_left l1 l2 k (by omega),
      byteAt_append_left l1 l2 (k + 1) (by omega),
      byteAt_append_left l1 l2 (k + 2) (by omega),
      byteAt_append_left l1 l2 (k + 3) (by omega)]

theorem is_valid_vt_append_right (l1 l2 : List Nat) (n : Nat) (hn : l1.length = n)
    (h8 : 8 ≤ l2.length) :
    is_valid_vt (l1 ++ l2) n = is_valid_vt l2 0 := by
  unfold is_valid_vt
  rw [List.length_append, hn]
  rw [if_neg (by omega), if_neg (by omega)]
  rw [u32le_append_right l1 l2 n 0 (by omega),
      u32le_append_right l1 l2 (n + 4) 4 (by omega)]

theorem is_valid_vt_append_left (l1 l2 : List Nat) (h8 : 8 ≤ l1.length) :
    is_valid_vt (l1 ++ l2) 0 = is_valid_vt l1 0 := by
  unfold is_valid_vt
  rw [List.length_append]
  rw [if_neg (by omega), if_neg (by omega)]
  rw [u32le_append_left l1 l2 0 (by omega),
      u32le_append_left l1 l2 (0 + 4) (by omega)]

theorem byteAt_replicate (r k : Nat) : byteAt (List.replicate r 0) k = 0 := by
  unfold byteAt
  rcases Nat.lt_or_ge k r with h | h
  · rw [List.getD_eq_getElem _ _ (by simpa using h)]
    simp
  · rw [List.getD_eq_default _ _ (by simpa using h)]

theorem is_valid_vt_replicate (r off : Nat) : is_valid_vt (List.replicate r 0) off = false := by
  unfold is_valid_vt
  split_ifs with h
  · rfl
  · have hmsp : u32le (List.replicate r 0) off = 0 := by
      unfold u32le
      rw [byteAt_replicate, byteAt_replicate, byteAt_replicate, byteAt_replicate]
    simp [hmsp]

/-- A plausible 8-byte vector table: stack pointer `0x20000000`, reset
vector `0x08000001`. -/
def vt8 : List Nat := [0x00, 0x00, 0x00, 0x20, 0x01, 0x00, 0x00, 0x08]

theorem vt8_length : vt8.length = 8 := rfl

/-- A buffer with plausible vector tables at file offset 0 AND at the
non-zero enumerated offset `0x1000`. -/
def c3data : List Nat := vt8 ++ List.replicate 0xFF8 0 ++ vt8

/-- A buffer whose only plausible vector table is at offset `0x1000`. -/
def c3dataAlt : List Nat := List.replicate 0x1000 0 ++ vt8

theorem c3data_valid0 : is_valid_vt c3data 0 = true := by
  unfold c3data
  rw [List.append_assoc]
  rw [is_valid_vt_append_left vt8 _ (by rw [vt8_length])]
  decide

theorem c3data_valid1000 : is_valid_vt c3data 0x1000 = true := by
  unfold c3data
  rw [is_valid_vt_append_right (vt8 ++ List.replicate 0xFF8 0) vt8 0x1000
    (by rw [List.length_append, List.length_replicate, vt8_length])
    (by rw [vt8_length])]
  decide

/-- C3 counterexample: `c3data` holds a plausible table both at offset 0 and
at the non-zero enumerated offset `0x1000`, yet the code's vector-table file
offset is `0`, not the first matching non-zero alternate `0x1000` as the
claim states: when offset 0 validates, the alternates are never probed. -/
theorem c3_counterexample :
    is_valid_vt c3data 0 = true ∧ is_valid_vt c3data 0x1000 = true ∧
      findVtOff c3data = 0 := by
  refine ⟨c3data_valid0, c3data_valid1000, ?_⟩
  unfold findVtOff
  rw [if_pos c3data_valid0]

/-- C3 amended: the vector-table file offset is `0` whenever offset 0 holds a
plausible table (the non-zero alternates are not probed at all); only when
offset 0 fails are the non-zero enumerated offsets probed in ascending order,
the first plausible one winning. -/
theorem c3_vt_search_amended (data : List Nat) (off : Nat)
    (hmem : off ∈ KNOWN_BL_OFFSETS.drop 1)
    (hv : is_valid_vt data off = true)
    (hfirst : ∀ o ∈ KNOWN_BL_OFFSETS.drop 1, o < off → is_valid_vt data o = false) :
    findVtOff data = if is_valid_vt data 0 then 0 else off := by
  by_cases h0 : is_valid_vt data 0 = true
  · simp [findVtOff, h0]
  · have hfind := find?_first_sorted (fun o => is_valid_vt data o) off hv
      (KNOWN_BL_OFFSETS.drop 1) (by decide) hmem hfirst
    rw [List.drop_one] at hfind
    simp [findVtOff, h0, List.drop_one, hfind]

theorem c3dataAlt_valid1000 : is_valid_vt c3dataAlt 0x1000 = true := by
  unfold c3dataAlt
  rw [is_valid_vt_append_right (List.replicate 0x1000 0) vt8 0x1000
    (by rw [List.length_replicate]) (by rw [vt8_length])]
  decide

theorem c3dataAlt_invalid0 : is_valid_vt c3dataAlt 0 = false := by
  unfold c3dataAlt
  rw [is_valid_vt_append_left (List.replicate 0x1000 0) vt8
    (by rw [List.length_replicate]; norm_num)]
  exact is_valid_vt_replicate 0x1000 0

/-- C3 witness: with no table at offset 0 and a table at `0x1000`, the
vector-table file offset is the first matching alternate `0x1000`. -/
theorem c3_witness :
    is_valid_vt c3dataAlt 0x1000 = true ∧ findVtOff c3dataAlt = 0x1000 := by
  have h := c3_vt_search_amended c3dataAlt 0x1000 (by decide) c3dataAlt_valid1000
    (by
      intro o ho hlt
      have ho2 : o ∈ [0x1000, 0x2000, 0x3000, 0x5000, 0x7000, 0x8000] := ho
      simp only [List.mem_cons, List.not_mem_nil, or_false] at ho2
      omega)
  refine ⟨c3dataAlt_valid1000, ?_⟩
  rw [h, if_neg (by simp [c3dataAlt_invalid0])]

theorem known_cast_mem : ∀ b ∈ KNOWN_BL_OFFSETS, (b : Int) ∈ enumOffsets := by decide

theorem find_link_base_shape (data : List Nat) (dictOff : Option Nat) (lb : Nat)
    (h : find_link_base data dictOff = some lb) :
    (∃ b ∈ KNOWN_BL_OFFSETS, lb = FLASH_BASE + b) ∨ lb % 0x1000 = 0 := by
  cases dictOff with
  | none =>
    have hfb : fallbackResolve data (findVtOff data) = some lb := h
    rcases fallbackResolve_shape data (findVtOff data) lb hfb with ⟨_, rfl⟩ | hmod
    · exact Or.inl ⟨findVtOff data, findVtOff_mem data, rfl⟩
    · exact Or.inr hmod
  | some d =>
    have hred : find_link_base data (some d) =
        (match primaryScan data d (findVtOff data) KNOWN_BL_OFFSETS with
          | none => none
          | some (some lb2) => some lb2
          | some none => fallbackResolve data (findVtOff data)) := rfl
    rw [hred] at h
    cases hps : primaryScan data d (findVtOff data) KNOWN_BL_OFFSETS with
    | none => rw [hps] at h; cases h
    | some r =>
      cases r with
      | some lb2 =>
        rw [hps] at h
        have hlb : lb2 = lb := by simpa using h
        subst hlb
        exact Or.inl (primaryScan_mem data d (findVtOff data) lb2 KNOWN_BL_OFFSETS hps)
      | none =>
        rw [hps] at h
        rcases fallbackResolve_shape data (findVtOff data) lb h with ⟨_, rfl⟩ | hmod
        · exact Or.inl ⟨findVtOff data, findVtOff_mem data, rfl⟩
        · exact Or.inr hmod

/-- C8: whenever the pipeline derives a bootloader offset
(`link_base − 0x08000000`) from a buffer of length ≥ 8, that offset is one of
the enumerated `KNOWN_OFFSETS` values or a 4 KiB-aligned value; and the
Offset Classifier maps every enumerated offset to its enumerated
`(kib, label)` pair and every other offset to
`(offset // 1024, "Non-standard offset")`, so the two cases are
distinguishable downstream. -/
theorem c8_offset_invariant (data : List Nat) (dictOff : Option Nat) (bl : Int)
    (h8 : 8 ≤ data.length)
    (hbl : resolve_bl_offset data dictOff = some bl) :
    (bl ∈ enumOffsets ∨ bl % 0x1000 = 0) ∧
    (∀ e ∈ KNOWN_OFFSETS, offset_label (e.1 : Int) = ((e.2.1 : Int), e.2.2)) ∧
    (∀ x : Int, x ∉ enumOffsets → offset_label x = (Int.fdiv x 1024, nonStandardLabel)) := by
  refine ⟨?_, ?_, ?_⟩
  · unfold resolve_bl_offset at hbl
    cases hflb : find_link_base data dictOff with
    | none => rw [hflb] at hbl; cases hbl
    | some lb =>
      rw [hflb] at hbl
      have hbl1 : (if lb = 0 then none
          else some ((lb : Int) - (FLASH_BASE : Int))) = some bl := hbl
      by_cases hz : lb = 0
      · rw [if_pos hz] at hbl1; cases hbl1
      · rw [if_neg hz] at hbl1
        have hbl2 : bl = (lb : Int) - (FLASH_BASE : Int) := by
          have := hbl1
          simp only [Option.some.injEq] at this
          exact this.symm
        subst hbl2
        rcases find_link_base_shape data dictOff lb hflb with ⟨b, hbmem, rfl⟩ | hmod
        · left
          have hcast : ((FLASH_BASE + b : Nat) : Int) - (FLASH_BASE : Int) = (b : Int) := by
            push_cast
            ring
          rw [hcast]
          exact known_cast_mem b hbmem
        · right
          have hf : (FLASH_BASE : Nat) % 0x1000 = 0 := by norm_num [FLASH_BASE]
          omega
  · intro e he
    simp only [KNOWN_OFFSETS, List.mem_cons, List.not_mem_nil, or_false] at he
    rcases he with rfl | rfl | rfl | rfl | rfl | rfl | rfl <;> decide
  · intro x hx
    simp only [enumOffsets, KNOWN_OFFSETS, List.map_cons, List.map_nil, List.mem_cons,
      List.not_mem_nil, or_false, not_or] at hx
    obtain ⟨h1, h2, h3, h4, h5, h6, h7⟩ := hx
    simp only [offset_label, KNOWN_OFFSETS, offsetLabelAux]
    rw [if_neg (by omega), if_neg (by omega), if_neg (by omega), if_neg (by omega),
        if_neg (by omega), if_neg (by omega), if_neg (by omega)]

/-- C8 witness: an 8-byte buffer whose reset vector is `0x08001001` resolves
via the last-resort fallback to `link_base = 0x08001000`, so the derived
offset `0x1000` is enumerated (4 KiB bootloader). -/
theorem c8_witness :
    resolve_bl_offset [0x00, 0x00, 0x00, 0x00, 0x01, 0x10, 0x00, 0x08] none = some 0x1000 ∧
    ((0x1000 : Int) ∈ enumOffsets ∨ (0x1000 : Int) % 0x1000 = 0) := by
  have h := c8_offset_invariant [0x00, 0x00, 0x00, 0x00, 0x01, 0x10, 0x00, 0x08] none 0x1000
    (by decide) (by decide)
  exact ⟨by decide, h.1⟩

/-- C6: the Dictionary Locator never propagates an exception (every failure
is a `none` the scan steps over): it returns absence exactly when every
candidate position fails, and when it returns a candidate, that candidate
was accepted and every earlier candidate position had failed and was passed
over (scanning continued). -/
theorem c6_locator_nonfatal (dc : List Nat → Option String) (pr : String → Option JVal)
    (data : List Nat) :
    (extract_dictionary dc pr data = none ↔
      ∀ i ∈ scanIdxs data, acceptedAt dc pr data i = none) ∧
    (∀ obj i, extract_dictionary dc pr data = some (obj, i) →
      acceptedAt dc pr data i = some obj ∧
        ∀ j ∈ scanIdxs data, j < i → acceptedAt dc pr data j = none) := by
  constructor
  · exact firstAccept_none_iff dc pr data (scanIdxs data)
  · intro obj i h
    obtain ⟨_, hacc, hall⟩ := firstAccept_some dc pr data obj i (scanIdxs data)
      (range'_sorted _ 4) h
    exact ⟨hacc, hall⟩

/-- An oracle that always fails (models a decompression failure). -/
def decompNone : List Nat → Option String := fun _ => none

/-- An oracle that always fails to parse. -/
def parseNone : String → Option JVal := fun _ => none

/-- C6 witness: on an all-zero 20-byte buffer every candidate fails, the
locator returns absence, and in particular candidate position 4 failed. -/
theorem c6_witness :
    acceptedAt decompNone parseNone (List.replicate 20 0) 4 = none := by
  have h := (c6_locator_nonfatal decompNone parseNone (List.replicate 20 0)).1.mp rfl
  exact h 4 (by decide)

/-- Fixture text for the locator oracles. -/
def cexText : String := "d"

/-- An oracle that decompresses anything to `cexText`. -/
def decompAll : List Nat → Option String := fun _ => some cexText

/-- A parsed object whose own mapping holds the MCU marker key. -/
def cexObj : JVal := JVal.jobj [(keyMCU, JVal.jstr cexText)]

/-- An oracle that parses anything to `cexObj`. -/
def parseAll : String → Option JVal := fun _ => some cexObj

/-- A 15-byte buffer whose zlib signature sits at position 0. -/
def c5data : List Nat := [0x78, 0x9C] ++ List.replicate 13 0

/-- C5 counterexample: with decompression/parsing behaviour that accepts at
every signature position, position 0 of `c5data` begins an acceptable
dictionary stream (signature bytes `78 9C` there), yet the locator returns
absence: the scan ranges over `range(4, len(data) - 10)` only, so position 0
is never considered — refuting the claim that every byte position is. -/
theorem c5_counterexample :
    acceptedAt decompAll parseAll c5data 0 = some cexObj ∧
    extract_dictionary decompAll parseAll c5data = none := by
  exact ⟨rfl, rfl⟩

/-- C5 amended: the Dictionary Locator considers exactly the byte positions
`i` with `4 ≤ i < len(data) - 10` (positions 0–3 and the final 10 are never
candidates); within that window no acceptable position is skipped: any
returned candidate lies in the window, and an acceptable in-window position
forces the scan to return a candidate. -/
theorem c5_scan_window (dc : List Nat → Option String) (pr : String → Option JVal)
    (data : List Nat) :
    (∀ obj i, extract_dictionary dc pr data = some (obj, i) →
      4 ≤ i ∧ i < data.length - 10) ∧
    (∀ i, 4 ≤ i → i < data.length - 10 → acceptedAt dc pr data i ≠ none →
      extract_dictionary dc pr data ≠ none) := by
  constructor
  · intro obj i h
    obtain ⟨hmem, _, _⟩ := firstAccept_some dc pr data obj i (scanIdxs data)
      (range'_sorted _ 4) h
    have := (range'_mem_iff (data.length - 10 - 4) 4 i).mp hmem
    omega
  · intro i h4 hlt hacc hnone
    have hall := (firstAccept_none_iff dc pr data (scanIdxs data)).mp hnone
    exact hacc (hall i ((range'_mem_iff (data.length - 10 - 4) 4 i).mpr (by omega)))

/-- A 17-byte buffer whose zlib signature sits at the in-window position 4. -/
def sigData17 : List Nat := [0x00, 0x00, 0x00, 0x00, 0x78, 0x9C] ++ List.replicate 11 0

/-- C5 witness: the accepting position 4 of `sigData17` lies in the scan
window, as the amended claim requires of any returned candidate. -/
theorem c5_witness : 4 ≤ 4 ∧ 4 < sigData17.length - 10 :=
  (c5_scan_window decompAll parseAll sigData17).1 cexObj 4 rfl

/-- Fixture: the MCU name of the round-trip object. -/
def mcuName9 : String := "gd32f303"

/-- Fixture: the config sub-mapping of the round-trip object. -/
def cfgList9 : List (String × JVal) :=
  [(keyMCU, JVal.jstr mcuName9), (keyClockFreq, JVal.jnum 72000000),
   (keySerialBaud, JVal.jnum 250000)]

/-- Fixture: the round-trip object
`{"config": {"MCU": "gd32f303", "CLOCK_FREQ": 72000000, "SERIAL_BAUD": 250000}}`. -/
def dictObj9 : JVal := JVal.jobj [(keyConfig, JVal.jobj cfgList9)]

/-- C9: for a buffer embedding (at in-window signature position `i`, with no
earlier acceptable candidate) a compressed stream whose decompression is the
JSON text of `dictObj9` and whose parse recovers `dictObj9`, the locator
returns `(dictObj9, i)` accepted; the recovered object's config sub-mapping
yields `MCU = "gd32f303"`, and the marker-key check holds.  The external
zlib/UTF-8/JSON calls are oracles (`dc`, `pr`) constrained by the round-trip
hypotheses `hdc`, `hpr`. -/
theorem c9_roundtrip (dc : List Nat → Option String) (pr : String → Option JVal)
    (data : List Nat) (i : Nat) (text : String)
    (h4 : 4 ≤ i) (hlt : i < data.length - 10)
    (hsig : sigAt data i = true)
    (hfirst : ∀ j ∈ scanIdxs data, j < i → acceptedAt dc pr data j = none)
    (hdc : dc (data.drop i) = some text)
    (hpr : pr text = some dictObj9) :
    extract_dictionary dc pr data = some (dictObj9, i) ∧
    cfgOf dictObj9 = some (JVal.jobj cfgList9) ∧
    jlookup keyMCU cfgList9 = some (JVal.jstr mcuName9) ∧
    markerCheck (JVal.jobj cfgList9) = some true := by
  have h1 : acceptedAt dc pr data i =
      (match pr text with
        | none => none
        | some obj =>
          match cfgOf obj with
          | none => none
          | some cfg =>
            match markerCheck cfg with
            | none => none
            | some b => if b then some obj else none) := by
    unfold acceptedAt
    rw [hsig, hdc]
    exact rfl
  have hacc : acceptedAt dc pr data i = some dictObj9 := by
    rw [h1, hpr]
    exact rfl
  refine ⟨?_, rfl, rfl, rfl⟩
  exact firstAccept_of_first dc pr data dictObj9 i (scanIdxs data)
    (range'_sorted _ 4)
    ((range'_mem_iff (data.length - 10 - 4) 4 i).mpr (by omega))
    hacc hfirst

/-- Fixture text standing for the decompressed JSON of `dictObj9`. -/
def text9 : String := "dict-json"

/-- Round-trip decompression oracle for the witness. -/
def decomp9 : List Nat → Option String := fun _ => some text9

/-- Round-trip parse oracle for the witness. -/
def parse9 : String → Option JVal := fun _ => some dictObj9

/-- C9 witness: on `sigData17` with the round-trip oracles, the locator
accepts at position 4 and the object's MCU is recovered. -/
theorem c9_witness :
    extract_dictionary decomp9 parse9 sigData17 = some (dictObj9, 4) ∧
    jlookup keyMCU cfgList9 = some (JVal.jstr mcuName9) := by
  have h := c9_roundtrip decomp9 parse9 sigData17 4 text9 (le_refl 4) (by decide)
    (by decide)
    (by
      intro j hj hlt
      have h4j := ((range'_mem_iff (sigData17.length - 10 - 4) 4 j).mp hj).1
      exact absurd hlt (by omega))
    rfl rfl
  exact ⟨h.1, h.2.2.1⟩

/-- C10: an existence claim the code satisfies: on the all-zero 8-byte buffer
no dictionary can be located (the scan window is empty), no enumerated offset
holds a plausible vector table, and the last-resort fallback returns
`link_base = 0`, strictly below `0x08000000` — the hypothetical
`link_base - 0x08000000` would be negative — so Step 4's result is not
constrained to the valid flash range (the pipeline then reports the offset
as absent, since `0` is falsy). -/
theorem c10_fallback_below_flash :
    8 ≤ (List.replicate 8 0 : List Nat).length ∧
    scanIdxs (List.replicate 8 0) = [] ∧
    (KNOWN_BL_OFFSETS.all fun off => !(is_valid_vt (List.replicate 8 0) off)) = true ∧
    find_link_base (List.replicate 8 0) none = some 0 ∧
    0 < FLASH_BASE ∧
    ((0 : Int) - (FLASH_BASE : Int) < 0) ∧
    resolve_bl_offset (List.replicate 8 0) none = none := by
  refine ⟨by decide, by decide, by decide, by decide, by decide, by decide, by decide⟩
